import Mathlib

set_option linter.unusedVariables false

/-!
Verification of the client-side conversation state machine of the
"The Narrator" story-chat application, shallowly embedded from the
source (the stateless-replay variant in `src/unnamed/part_000`; the
`getChatData` / `saveChatData` persistence helpers are identical in
`src/index.tsx`).

Modelling conventions:
* `localStorage` is a partial map from keys to stored payloads.  The
  code only ever inspects a stored string through `JSON.parse`, then
  distinguishes parse failure, `Array.isArray`, and a plain object with
  optional `history` / `systemInstruction` fields; the payload type
  `RawPayload` records exactly those observable outcomes
  (`JSON.stringify` followed by `JSON.parse` is the identity on this
  data, so a saved record is stored directly as its parsed shape).
* JavaScript truthiness on the string fields is `≠ ""`; a missing or
  `null` field is `Option.none`; an array field is always truthy (even
  when empty), matching `parsedData.history || []`.
* `JSON.parse` applied to a backend response is an oracle supplied
  alongside the response text (`ParseOutcome`), since the claims
  quantify over its outcome; a response that parses to `null` or to a
  primitive behaves like the recorded constructors (see `storyPartOf`).
* The module-level mutable variables (`currentHistory`,
  `currentChatTitle`, `currentSystemInstruction`, the debounce timer
  and the store) form the explicit state `AppState`; the suspension at
  `await ai.models.generateContent` splits `sendMessage` into
  `sendMessageStart` (everything before the await) and
  `sendMessageResponse` (everything after it, executed against the
  state current at response time).
-/

namespace Narrator

/-- One `parts` entry of a `Content` value, as in the `@google/genai`
`Content` shape used by the code: `{ text: string }`. -/
structure Part where
  text : String
deriving DecidableEq, Repr

/-- A turn: `{ role, parts: [{text}] }`. -/
structure Content where
  role : String
  parts : List Part
deriving DecidableEq, Repr

abbrev History := List Content

/-- `{ role: 'user', parts: [{ text: msg }] }` as pushed by `sendMessage`. -/
def userTurn (msg : String) : Content := ⟨"user", [⟨msg⟩]⟩

/-- `{ role: 'model', parts: [{ text: t }] }` as pushed by `sendMessage`. -/
def modelTurn (t : String) : Content := ⟨"model", [⟨t⟩]⟩

/-- `turn.parts.map((p) => p.text).join('')`. -/
def joinedParts (c : Content) : String := String.join (c.parts.map Part.text)

/-- `DEFAULT_SYSTEM_INSTRUCTION` from the source. -/
def DEFAULT_SYSTEM_INSTRUCTION : String :=
  "You are a master storyteller. Your goal is to weave imaginative and engaging tales for the user. When the user gives you a prompt, turn it into a captivating story."

/-- The per-title persistence key, `HISTORY_KEY_PREFIX + title`. -/
def historyKey (title : String) : String := "gemini-story-history-" ++ title

/-- The observable shapes a stored string can take once `getChatData`
runs `JSON.parse` over it: an unparsable string, a bare JSON array
(legacy format), or an object whose `history` / `systemInstruction`
fields may each be absent (or `null`). -/
inductive RawPayload where
  | unparsable
  | legacyArr (history : History)
  | obj (history : Option History) (systemInstruction : Option String)
deriving DecidableEq, Repr

/-- The `localStorage` slice holding the per-title records; `none` is an
absent key. -/
abbrev Store := String → Option RawPayload

/-- The `ChatData` interface of the source. -/
structure ChatData where
  history : History
  systemInstruction : String
deriving DecidableEq, Repr

/-- `getChatData` (part_000 lines 116-146, identical in index.tsx):
absent record, parse failure, legacy bare array, and object
normalisation via `parsedData.history || []` and
`parsedData.systemInstruction || DEFAULT_SYSTEM_INSTRUCTION`. -/
def getChatData (store : Store) (title : String) : ChatData :=
  match store (historyKey title) with
  | none => { history := [], systemInstruction := DEFAULT_SYSTEM_INSTRUCTION }
  | some .unparsable => { history := [], systemInstruction := DEFAULT_SYSTEM_INSTRUCTION }
  | some (.legacyArr h) => { history := h, systemInstruction := DEFAULT_SYSTEM_INSTRUCTION }
  | some (.obj h si) =>
      { history := h.getD [],
        systemInstruction :=
          match si with
          | none => DEFAULT_SYSTEM_INSTRUCTION
          | some s => if s = "" then DEFAULT_SYSTEM_INSTRUCTION else s }

/-- `saveChatData` (part_000 lines 148-155): serialises
`{history, systemInstruction}` under the title key, overwriting
unconditionally.  Both fields are always present in the written
object. -/
def saveChatData (store : Store) (title : String) (history : History)
    (systemInstruction : String) : Store :=
  fun k =>
    if k = historyKey title then some (.obj (some history) (some systemInstruction))
    else store k

theorem getChatData_saveChatData_same (store : Store) (title : String)
    (h : History) (si : String) :
    getChatData (saveChatData store title h si) title
      = { history := h,
          systemInstruction := if si = "" then DEFAULT_SYSTEM_INSTRUCTION else si } := by
  simp [getChatData, saveChatData]

/-- Claim C4: for every conversation with a non-empty turn list and a
non-empty system instruction, `saveChatData` followed by `getChatData`
on the same title returns exactly the saved turns (same order) and the
saved system instruction. -/
theorem claim_C4_save_load_roundtrip (store : Store) (title : String)
    (h : History) (si : String) (hne : h ≠ []) (sne : si ≠ "") :
    getChatData (saveChatData store title h si) title
      = { history := h, systemInstruction := si } := by
  rw [getChatData_saveChatData_same, if_neg sne]

theorem claim_C4_save_load_roundtrip_witness :
    ([⟨"user", [⟨"hello"⟩]⟩, ⟨"model", [⟨"a tale"⟩]⟩] : History) ≠ [] ∧
    ("be dramatic" : String) ≠ "" ∧
    getChatData
        (saveChatData (fun _ => none) "My Story"
          [⟨"user", [⟨"hello"⟩]⟩, ⟨"model", [⟨"a tale"⟩]⟩] "be dramatic") "My Story"
      = { history := [⟨"user", [⟨"hello"⟩]⟩, ⟨"model", [⟨"a tale"⟩]⟩],
          systemInstruction := "be dramatic" } :=
  ⟨by decide, by decide,
    claim_C4_save_load_roundtrip (fun _ => none) "My Story" _ _ (by decide) (by decide)⟩

/-- Claim C7: `getChatData` is total (a Lean function: it never
throws); an absent record yields the empty conversation with the
default instruction, a stored bare JSON array (legacy shape) yields
that array as the turns with the default instruction, and an
unparsable stored payload yields the empty-conversation default. -/
theorem claim_C7_load_total (store : Store) (title : String) (h : History) :
    (store (historyKey title) = none →
      getChatData store title
        = { history := [], systemInstruction := DEFAULT_SYSTEM_INSTRUCTION }) ∧
    (store (historyKey title) = some (.legacyArr h) →
      getChatData store title
        = { history := h, systemInstruction := DEFAULT_SYSTEM_INSTRUCTION }) ∧
    (store (historyKey title) = some .unparsable →
      getChatData store title
        = { history := [], systemInstruction := DEFAULT_SYSTEM_INSTRUCTION }) := by
  refine ⟨fun e => ?_, fun e => ?_, fun e => ?_⟩ <;> simp [getChatData, e]

theorem claim_C7_load_total_witness :
    getChatData (fun _ => none) "T"
        = { history := [], systemInstruction := DEFAULT_SYSTEM_INSTRUCTION } ∧
    getChatData
        (fun k => if k = historyKey "T" then some (.legacyArr [⟨"user", [⟨"x"⟩]⟩]) else none) "T"
        = { history := [⟨"user", [⟨"x"⟩]⟩], systemInstruction := DEFAULT_SYSTEM_INSTRUCTION } ∧
    getChatData (fun k => if k = historyKey "T" then some .unparsable else none) "T"
        = { history := [], systemInstruction := DEFAULT_SYSTEM_INSTRUCTION } :=
  ⟨(claim_C7_load_total (fun _ => none) "T" []).1 rfl,
   (claim_C7_load_total _ "T" [⟨"user", [⟨"x"⟩]⟩]).2.1 (by decide),
   (claim_C7_load_total _ "T" []).2.2 (by decide)⟩

/-- Claim C10: for stored payloads parsing as a JSON object,
`getChatData` normalises falsy fields — a missing `systemInstruction`
or an empty-string one is replaced by the default instruction, a
missing `history` field becomes the empty list — and `getChatData`
never returns an empty system instruction, so a conversation saved
with an empty instruction loads back with the default instead. -/
theorem claim_C10_load_normalises (store : Store) (title : String)
    (hOpt : Option History) (siOpt : Option String) (h : History) :
    (store (historyKey title) = some (.obj hOpt none) →
      (getChatData store title).systemInstruction = DEFAULT_SYSTEM_INSTRUCTION) ∧
    (store (historyKey title) = some (.obj hOpt (some "")) →
      (getChatData store title).systemInstruction = DEFAULT_SYSTEM_INSTRUCTION) ∧
    (store (historyKey title) = some (.obj none siOpt) →
      (getChatData store title).history = []) ∧
    (getChatData store title).systemInstruction ≠ "" ∧
    (getChatData (saveChatData store title h "") title).systemInstruction
      = DEFAULT_SYSTEM_INSTRUCTION := by
  refine ⟨fun e => by simp [getChatData, e], fun e => by simp [getChatData, e],
    fun e => by simp [getChatData, e], ?_, ?_⟩
  · unfold getChatData
    have hdef : DEFAULT_SYSTEM_INSTRUCTION ≠ "" := by decide
    cases hs : store (historyKey title) with
    | none => simpa using hdef
    | some p =>
      cases p with
      | unparsable => simpa using hdef
      | legacyArr h' => simpa using hdef
      | obj h' si =>
        cases si with
        | none => simpa using hdef
        | some s =>
          by_cases hse : s = "" <;> simp [hse, hdef]
  · rw [getChatData_saveChatData_same, if_pos rfl]

theorem claim_C10_load_normalises_witness :
    (getChatData (fun k => if k = historyKey "T" then some (.obj (some []) none) else none)
        "T").systemInstruction = DEFAULT_SYSTEM_INSTRUCTION ∧
    (getChatData (fun k => if k = historyKey "T" then some (.obj (some []) (some "")) else none)
        "T").systemInstruction = DEFAULT_SYSTEM_INSTRUCTION ∧
    (getChatData (fun k => if k = historyKey "T" then some (.obj none (some "x")) else none)
        "T").history = [] ∧
    (getChatData (fun _ => none) "T").systemInstruction ≠ "" ∧
    (getChatData (saveChatData (fun _ => none) "T" [] "") "T").systemInstruction
      = DEFAULT_SYSTEM_INSTRUCTION :=
  ⟨(claim_C10_load_normalises _ "T" (some []) none []).1 (by decide),
   (claim_C10_load_normalises _ "T" (some []) none []).2.1 (by decide),
   (claim_C10_load_normalises _ "T" none (some "x") []).2.2.1 (by decide),
   (claim_C10_load_normalises (fun _ => none) "T" none none []).2.2.2.1,
   (claim_C10_load_normalises (fun _ => none) "T" none none []).2.2.2.2⟩

/-! ### The turn controller (`sendMessage` and friends, part_000) -/

/-- A thrown JavaScript value as inspected by `handleApiError`: an
`Error` instance carries its `message`; anything else falls through to
the generic text. -/
inductive JsError where
  | jsError (msg : String)
  | other
deriving DecidableEq, Repr

/-- `s.includes(pat)`: substring containment on the character list. -/
def containsSub (s pat : String) : Bool := decide (pat.data <:+: s.data)

/-- The message-classification logic of `handleApiError` (part_000
lines 254-291): case-insensitive substring dispatch producing the
user-facing error text (the DOM work — removing the loading indicator
and appending the message — is the rendering layer). -/
def handleApiError (e : JsError) : String :=
  match e with
  | .other => "An unexpected error occurred. Please try again later."
  | .jsError msg =>
    let low := msg.toLower
    if containsSub low "api key not valid" then
      "Your API key is invalid. Please check your configuration."
    else if containsSub low "quota" then
      "You have exceeded your API quota. Please check your usage and billing."
    else if containsSub low "network error" || containsSub low "failed to fetch" then
      "A network error occurred. Please check your internet connection and try again."
    else if containsSub low "400" then
      "The request was malformed. This could be due to a safety policy violation. Please try rephrasing your prompt."
    else if containsSub low "500" || containsSub low "503" then
      "The service is temporarily unavailable. Please try again in a few moments."
    else
      "Could not get a response. " ++ msg

/-- The outcome of `JSON.parse(response.text)` as observed by
`sendMessage`: `failure` when parsing throws (the inner `catch`; a
parse producing `null` takes the same path, since the subsequent field
access throws inside the same `try`), or the parsed object's optional
`story_part` and `suggestions` fields (a parse producing a non-null
primitive behaves as `parsed none none`: both field reads give
`undefined`). -/
inductive ParseOutcome where
  | failure
  | parsed (story_part : Option String) (suggestions : Option (List String))
deriving DecidableEq, Repr

/-- The settled backend call: a resolved response (its text together
with the `JSON.parse` oracle for that text) or a rejection. -/
inductive BackendResult where
  | ok (text : String) (parse : ParseOutcome)
  | thrown (e : JsError)
deriving DecidableEq, Repr

/-- The fallback story text substituted when the parsed object has no
truthy `story_part` (part_000 lines 444-446). -/
def fallbackStoryText (text : String) : String :=
  "Error: The model\x27s response was not in the correct format. Here is the raw response: " ++ text

/-- `storyPart` after the inner try/catch (lines 442-454):
`jsonResponse.story_part || fallback` under JS truthiness, or the raw
response text when parsing failed. -/
def storyPartOf (text : String) : ParseOutcome → String
  | .failure => text
  | .parsed sp _ =>
    match sp with
    | some s => if s = "" then fallbackStoryText text else s
    | none => fallbackStoryText text

/-- `suggestions` after the inner try/catch: `jsonResponse.suggestions
|| []`, and the initial `[]` when parsing failed. -/
def suggestionsOf : ParseOutcome → List String
  | .failure => []
  | .parsed _ sug => sug.getD []

/-- The message of the `Error` thrown when `storyPart` is falsy
(line 457). -/
def missingStoryMessage : String := "API response is missing \x27story_part\x27."

/-- The module-level mutable state of part_000 plus the store:
`currentHistory`, `currentChatTitle`, `currentSystemInstruction`, the
pending debounce timer (`saveTimeoutId`, as remaining milliseconds),
and the persisted records.  `writes` is instrumentation: it logs each
`saveChatData` call performed by the debounced timer callback, so that
"exactly one write" is expressible. -/
structure AppState where
  currentHistory : History
  currentChatTitle : Option String
  currentSystemInstruction : String
  saveTimer : Option Nat
  store : Store
  writes : List (String × History × String)

/-- `scheduleSave` (lines 90-114): clears any pending timer and
schedules a fresh one 1500 ms out.  Note it reads no conversation
state at scheduling time. -/
def scheduleSave (σ : AppState) : AppState := { σ with saveTimer := some 1500 }

/-- The debounced timer callback body (lines 97-113): at fire time it
checks `currentChatTitle` — bailing out if no conversation is active —
and otherwise writes the *current* history and instruction under the
current title. -/
def fireSave (σ : AppState) : AppState :=
  match σ.currentChatTitle with
  | none => σ
  | some t =>
      { σ with
        store := saveChatData σ.store t σ.currentHistory σ.currentSystemInstruction,
        writes := σ.writes ++ [(t, σ.currentHistory, σ.currentSystemInstruction)] }

/-- Wall-clock time passing: a pending timer fires when its delay
elapses, otherwise keeps counting down. -/
def stepTimer (dt : Nat) (σ : AppState) : AppState :=
  match σ.saveTimer with
  | none => σ
  | some t => if t ≤ dt then fireSave { σ with saveTimer := none }
              else { σ with saveTimer := some (t - dt) }

/-- `loadChat` (lines 490-524), state part: set the active title, load
the record, replace the in-memory history and instruction.  (The DOM
replay, the welcome message for empty histories, and the last-active
pointer are rendering/bootstrap concerns; note `loadChat` does *not*
clear a pending debounce timer.) -/
def loadChat (σ : AppState) (title : String) : AppState :=
  let data := getChatData σ.store title
  { σ with
    currentHistory := data.history,
    currentChatTitle := some title,
    currentSystemInstruction := data.systemInstruction }

/-- `sendMessage` up to the `await` (lines 397-436): bail out when no
conversation is active, otherwise push the user turn and schedule a
save.  The returned flag records whether a backend request was
issued. -/
def sendMessageStart (σ : AppState) (userMessage : String) : AppState × Bool :=
  match σ.currentChatTitle with
  | none => (σ, false)
  | some _ =>
      (scheduleSave { σ with currentHistory := σ.currentHistory ++ [userTurn userMessage] },
       true)

/-- What the turn reports back to the rendering layer. -/
inductive TurnOutcome where
  | success (story : String) (suggestions : List String)
  | failed (message : String)
deriving DecidableEq, Repr

/-- `sendMessage` from the `await` on (lines 427-466), applied to the
state current when the response settles: a rejected call goes to
`handleApiError` (no state change); a resolved one computes
`storyPart` / `suggestions`, throws into the same `catch` when
`storyPart` is falsy, and otherwise appends the model turn and
schedules a save. -/
def sendMessageResponse (σ : AppState) (res : BackendResult) : AppState × TurnOutcome :=
  match res with
  | .thrown e => (σ, .failed (handleApiError e))
  | .ok text parse =>
      let storyPart := storyPartOf text parse
      if storyPart = "" then
        (σ, .failed (handleApiError (.jsError missingStoryMessage)))
      else
        (scheduleSave { σ with currentHistory := σ.currentHistory ++ [modelTurn storyPart] },
         .success storyPart (suggestionsOf parse))

/-- A concrete active-conversation state used by the closed
evaluations below. -/
def exampleState : AppState :=
  { currentHistory := [userTurn "hi"],
    currentChatTitle := some "T",
    currentSystemInstruction := DEFAULT_SYSTEM_INSTRUCTION,
    saveTimer := some 1500,
    store := fun _ => none,
    writes := [] }

/-- Claim C1 (code evaluated at the failing input): when the response
parses as a JSON object with no `story_part` field, `sendMessage` does
*not* fail the turn — the `||` fallback substitutes a truthy
error-prose string, so the `if (!storyPart) throw` guard never fires,
a model turn containing that prose is appended to the history, and the
outcome is reported as success with the parsed suggestions. -/
theorem claim_C1_missing_story_is_accepted :
    sendMessageResponse exampleState
        (.ok "\x7b\"suggestions\":[\"a\",\"b\",\"c\"]\x7d" (.parsed none (some ["a", "b", "c"])))
      = ({ exampleState with
            currentHistory := exampleState.currentHistory
              ++ [modelTurn (fallbackStoryText "\x7b\"suggestions\":[\"a\",\"b\",\"c\"]\x7d")],
            saveTimer := some 1500 },
         .success (fallbackStoryText "\x7b\"suggestions\":[\"a\",\"b\",\"c\"]\x7d")
           ["a", "b", "c"]) := by
  rfl

/-- Claim C3: with a (user, model) pair at the end of the history,
`regenerateLastResponse` pops exactly those two turns and re-submits
the user turn's text; with fewer than two turns it is a no-op. -/
def regenerateLastResponse (h : History) : History × Option String :=
  if h.length < 2 then (h, none)
  else
    match h.dropLast.getLast? with
    | none => (h.dropLast, none)
    | some lastUserTurn => (h.dropLast.dropLast, some (joinedParts lastUserTurn))

theorem claim_C3_regenerate (pre : History) (u m : Content)
    (hu : u.role = "user") (hm : m.role = "model") :
    regenerateLastResponse (pre ++ [u, m]) = (pre, some (joinedParts u)) ∧
    ∀ h : History, h.length ≤ 1 → regenerateLastResponse h = (h, none) := by
  constructor
  · have hsplit : pre ++ [u, m] = (pre ++ [u]) ++ [m] := by simp
    have hlen : ¬ (pre ++ [u, m]).length < 2 := by simp
    have hdrop : (pre ++ [u, m]).dropLast = pre ++ [u] := by
      rw [hsplit]; simp
    rw [regenerateLastResponse, if_neg hlen, hdrop]
    simp
  · intro h hl
    rw [regenerateLastResponse, if_pos (by omega)]

theorem claim_C3_regenerate_witness :
    (userTurn "go left").role = "user" ∧ (modelTurn "you fall").role = "model" ∧
    regenerateLastResponse [userTurn "go left", modelTurn "you fall"]
      = ([], some "go left") ∧
    regenerateLastResponse [userTurn "solo"] = ([userTurn "solo"], none) ∧
    regenerateLastResponse [] = ([], none) := by
  have h := claim_C3_regenerate [] (userTurn "go left") (modelTurn "you fall") rfl rfl
  refine ⟨rfl, rfl, ?_, h.2 [userTurn "solo"] (by decide), h.2 [] (by decide)⟩
  have := h.1
  simpa [joinedParts, userTurn, String.join] using this

/-- Claim C8, counterexample: a backend response whose text is the
empty string does not parse as JSON, yet the turn does *not* succeed —
`storyPart` stays empty, the missing-story error is thrown, and the
turn fails with a classified message. -/
theorem claim_C8_counterexample :
    sendMessageResponse exampleState (.ok "" .failure)
      = (exampleState, .failed (handleApiError (.jsError missingStoryMessage))) := by
  rfl

/-- Claim C8 (amended): when the backend returns *non-empty* text that
does not parse as JSON, the turn succeeds with the raw text verbatim
as the model story content and an empty suggestion list, appending the
corresponding model turn. -/
theorem claim_C8_degrade (σ : AppState) (text : String) (ht : text ≠ "") :
    sendMessageResponse σ (.ok text .failure)
      = ({ σ with
            currentHistory := σ.currentHistory ++ [modelTurn text],
            saveTimer := some 1500 },
         .success text []) := by
  rw [sendMessageResponse]
  simp [storyPartOf, suggestionsOf, scheduleSave, ht]

theorem claim_C8_degrade_witness :
    ("Once upon a time..." : String) ≠ "" ∧
    sendMessageResponse exampleState (.ok "Once upon a time..." .failure)
      = ({ exampleState with
            currentHistory := exampleState.currentHistory ++ [modelTurn "Once upon a time..."],
            saveTimer := some 1500 },
         .success "Once upon a time..." []) :=
  ⟨by decide, claim_C8_degrade exampleState "Once upon a time..." (by decide)⟩

/-- Claim C9: when the backend call rejects, the user turn appended
before the `await` stays in the history (no rollback), no model turn
is appended, and the failure surfaces as the single classified
`handleApiError` message instead of propagating. -/
theorem claim_C9_failure_keeps_user_turn (σ : AppState) (msg t : String) (e : JsError)
    (ha : σ.currentChatTitle = some t) :
    (sendMessageStart σ msg).1.currentHistory = σ.currentHistory ++ [userTurn msg] ∧
    sendMessageResponse (sendMessageStart σ msg).1 (.thrown e)
      = ((sendMessageStart σ msg).1, .failed (handleApiError e)) := by
  constructor
  · simp [sendMessageStart, ha, scheduleSave]
  · rfl

theorem claim_C9_failure_keeps_user_turn_witness :
    exampleState.currentChatTitle = some "T" ∧
    (sendMessageStart exampleState "go on").1.currentHistory
      = exampleState.currentHistory ++ [userTurn "go on"] ∧
    sendMessageResponse (sendMessageStart exampleState "go on").1
        (.thrown (.jsError "Failed to fetch"))
      = ((sendMessageStart exampleState "go on").1,
         .failed (handleApiError (.jsError "Failed to fetch"))) :=
  ⟨rfl,
   (claim_C9_failure_keeps_user_turn exampleState "go on" "T" (.jsError "Failed to fetch") rfl).1,
   (claim_C9_failure_keeps_user_turn exampleState "go on" "T" (.jsError "Failed to fetch") rfl).2⟩

/-! ### Claim C2: response arriving after a conversation switch -/

theorem historyKey_inj {a b : String} (h : historyKey a = historyKey b) : a = b := by
  have hd := congrArg String.data h
  simp only [historyKey, String.data_append] at hd
  exact String.ext (List.append_cancel_left hd)

/-- Store for the switch scenario: conversation "A" is empty,
conversation "B" already holds one model turn. -/
def switchStore : Store := fun k =>
  if k = historyKey "A" then some (.obj (some []) (some "keep it grim"))
  else if k = historyKey "B" then some (.obj (some [modelTurn "b1"]) (some "keep it light"))
  else none

def initialSwitchState : AppState :=
  { currentHistory := [],
    currentChatTitle := none,
    currentSystemInstruction := DEFAULT_SYSTEM_INSTRUCTION,
    saveTimer := none,
    store := switchStore,
    writes := [] }

/-- The scenario of the claim, step by step: open "A", submit a turn
(request goes out), switch to "B" while the request is in flight, then
the response settles. -/
def switchScenarioResponse : AppState × TurnOutcome :=
  sendMessageResponse
    (loadChat (sendMessageStart (loadChat initialSwitchState "A") "go").1 "B")
    (.ok "The story" (.parsed (some "The story") (some ["x", "y", "z"])))

/-- Claim C2, counterexample: `sendMessage` captures no title and
compares nothing at response time, so the late response is applied to
the conversation active when it arrives — the model turn is appended
to "B"\x27s in-memory history, and the debounced save then persists it
under "B". -/
theorem claim_C2_counterexample :
    switchScenarioResponse.1.currentChatTitle = some "B" ∧
    switchScenarioResponse.1.currentHistory = [modelTurn "b1", modelTurn "The story"] ∧
    (getChatData (stepTimer 1500 switchScenarioResponse.1).store "B").history
      = [modelTurn "b1", modelTurn "The story"] := by
  refine ⟨rfl, rfl, rfl⟩

/-- Claim C2 (amended): there is no discard guard.  If the user
switches from conversation A to conversation B before the response
arrives, the response is applied to the conversation active at
response time: the model turn is appended to B\x27s freshly loaded
in-memory history (and the rescheduled debounced save will persist it
under B\x27s title); A\x27s stored record is not touched — neither by
the response processing, which performs no store write, nor by the
subsequent timer fire, which writes under B\x27s key only. -/
theorem claim_C2_applied_to_active (σ : AppState) (A B msg text : String)
    (parse : ParseOutcome) (ha : σ.currentChatTitle = some A)
    (hsp : storyPartOf text parse ≠ "") (hAB : A ≠ B) :
    (sendMessageResponse (loadChat (sendMessageStart σ msg).1 B)
        (.ok text parse)).1.currentChatTitle = some B ∧
    (sendMessageResponse (loadChat (sendMessageStart σ msg).1 B)
        (.ok text parse)).1.currentHistory
      = (getChatData σ.store B).history ++ [modelTurn (storyPartOf text parse)] ∧
    (sendMessageResponse (loadChat (sendMessageStart σ msg).1 B)
        (.ok text parse)).1.store = σ.store ∧
    (stepTimer 1500 (sendMessageResponse (loadChat (sendMessageStart σ msg).1 B)
        (.ok text parse)).1).store (historyKey A)
      = σ.store (historyKey A) := by
  have hk : historyKey A ≠ historyKey B := fun hk => hAB (historyKey_inj hk)
  refine ⟨?_, ?_, ?_, ?_⟩ <;>
    simp [sendMessageStart, ha, loadChat, scheduleSave, sendMessageResponse, hsp,
      stepTimer, fireSave, saveChatData, hk]

theorem claim_C2_applied_to_active_witness :
    (loadChat initialSwitchState "A").currentChatTitle = some "A" ∧
    storyPartOf "The story" (.parsed (some "The story") (some ["x", "y", "z"])) ≠ "" ∧
    ("A" : String) ≠ "B" ∧
    switchScenarioResponse.1.currentChatTitle = some "B" ∧
    switchScenarioResponse.1.currentHistory
      = (getChatData (loadChat initialSwitchState "A").store "B").history
          ++ [modelTurn (storyPartOf "The story"
                (.parsed (some "The story") (some ["x", "y", "z"])))] ∧
    (stepTimer 1500 switchScenarioResponse.1).store (historyKey "A")
      = (loadChat initialSwitchState "A").store (historyKey "A") := by
  have h := claim_C2_applied_to_active (loadChat initialSwitchState "A") "A" "B" "go"
    "The story" (.parsed (some "The story") (some ["x", "y", "z"])) rfl (by decide) (by decide)
  exact ⟨rfl, by decide, by decide, h.1, h.2.1, h.2.2.2⟩

/-! ### Claim C5: debounce coalescing (`scheduleSave`) -/

/-- Events visible to the save scheduler: a `scheduleSave()` request,
wall-clock time passing, and an ambient mutation of the module-level
conversation variables (which `scheduleSave` does not read until the
timer fires). -/
inductive SchedEvent where
  | requestSave
  | elapse (dt : Nat)
  | setContext (h : History) (t : Option String) (si : String)

def schedStep (σ : AppState) : SchedEvent → AppState
  | .requestSave => scheduleSave σ
  | .elapse dt => stepTimer dt σ
  | .setContext h t si =>
      { σ with currentHistory := h, currentChatTitle := t, currentSystemInstruction := si }

def schedRun (σ : AppState) (evs : List SchedEvent) : AppState := evs.foldl schedStep σ

/-- The conversation context in effect when a `requestSave` is made. -/
structure CallCtx where
  h : History
  t : Option String
  si : String

/-- One `requestSave()` call: the context is set, the save is
requested, then `gap` milliseconds pass before the next event. -/
def callEvents (c : CallCtx × Nat) : List SchedEvent :=
  [.setContext c.1.h c.1.t c.1.si, .requestSave, .elapse c.2]

def coreTrace : List (CallCtx × Nat) → List SchedEvent
  | [] => []
  | c :: rest => callEvents c ++ coreTrace rest

theorem schedRun_append (σ : AppState) (a b : List SchedEvent) :
    schedRun σ (a ++ b) = schedRun (schedRun σ a) b := by
  simp [schedRun, List.foldl_append]

theorem schedRun_coreTrace (lastc : CallCtx × Nat) :
    ∀ (init : List (CallCtx × Nat)) (σ : AppState),
      (∀ c ∈ init ++ [lastc], c.2 < 1500) →
      schedRun σ (coreTrace (init ++ [lastc]))
        = { σ with
            currentHistory := lastc.1.h,
            currentChatTitle := lastc.1.t,
            currentSystemInstruction := lastc.1.si,
            saveTimer := some (1500 - lastc.2) } := by
  intro init
  induction init with
  | nil =>
    intro σ hg
    have hlt : lastc.2 < 1500 := hg lastc (by simp)
    simp only [List.nil_append, coreTrace, callEvents, schedRun, List.foldl,
      schedStep, scheduleSave, stepTimer]
    rw [if_neg (by omega)]
  | cons c rest ih =>
    intro σ hg
    have hc : c.2 < 1500 := hg c (by simp)
    have hstep : schedRun σ (callEvents c)
        = { σ with
            currentHistory := c.1.h,
            currentChatTitle := c.1.t,
            currentSystemInstruction := c.1.si,
            saveTimer := some (1500 - c.2) } := by
      simp only [callEvents, schedRun, List.foldl, schedStep, scheduleSave, stepTimer]
      rw [if_neg (by omega)]
    have : coreTrace ((c :: rest) ++ [lastc]) = callEvents c ++ coreTrace (rest ++ [lastc]) := by
      simp [coreTrace]
    rw [this, schedRun_append, hstep, ih _ (fun x hx => hg x (by simp at hx ⊢; tauto))]

/-- Claim C5: any number N ≥ 1 of `requestSave()` calls, each arriving
within the 1500 ms quiet period of the previous one, produce exactly
one persisted write once the quiet period finally elapses, and that
write carries the context of the last call; and if the active title
has been cleared by the time the debounced timer fires (conversation
abandoned mid-debounce), no write happens at all — `scheduleSave`
checks `currentChatTitle` at fire time, not at request time. -/
theorem claim_C5_debounce_coalesce (init : List (CallCtx × Nat)) (lastc : CallCtx × Nat)
    (σ : AppState) (h2 : History) (si2 : String)
    (hw : σ.writes = []) (hg : ∀ c ∈ init ++ [lastc], c.2 < 1500) :
    (schedRun σ (coreTrace (init ++ [lastc]) ++ [.elapse 1500])).writes
      = (match lastc.1.t with
         | some t => [(t, lastc.1.h, lastc.1.si)]
         | none => []) ∧
    (schedRun σ (coreTrace (init ++ [lastc])
        ++ [.setContext h2 none si2, .elapse 1500])).writes = [] := by
  have hcore := schedRun_coreTrace lastc init σ hg
  constructor
  · rw [schedRun_append, hcore]
    simp only [schedRun, List.foldl, schedStep, stepTimer]
    rw [if_pos (by omega)]
    cases ht : lastc.1.t <;> simp [fireSave, ht, hw]
  · rw [schedRun_append, hcore]
    simp only [schedRun, List.foldl, schedStep, stepTimer]
    rw [if_pos (by omega)]
    simp [fireSave, hw]

theorem claim_C5_debounce_coalesce_witness :
    initialSwitchState.writes = [] ∧
    (∀ c ∈ ([(⟨[userTurn "a"], some "T", "s1"⟩, 100)]
        ++ [((⟨[userTurn "a", modelTurn "b"], some "T", "s2"⟩ : CallCtx), 50)]), c.2 < 1500) ∧
    (schedRun initialSwitchState
        (coreTrace ([(⟨[userTurn "a"], some "T", "s1"⟩, 100)]
            ++ [(⟨[userTurn "a", modelTurn "b"], some "T", "s2"⟩, 50)])
          ++ [.elapse 1500])).writes
      = [("T", [userTurn "a", modelTurn "b"], "s2")] ∧
    (schedRun initialSwitchState
        (coreTrace ([(⟨[userTurn "a"], some "T", "s1"⟩, 100)]
            ++ [(⟨[userTurn "a", modelTurn "b"], some "T", "s2"⟩, 50)])
          ++ [.setContext [] none "s3", .elapse 1500])).writes = [] := by
  have h := claim_C5_debounce_coalesce
    [(⟨[userTurn "a"], some "T", "s1"⟩, 100)]
    (⟨[userTurn "a", modelTurn "b"], some "T", "s2"⟩, 50)
    initialSwitchState [] "s3" rfl (by intro c hc; simp at hc; rcases hc with h | h <;> simp [h])
  exact ⟨rfl, by intro c hc; simp at hc; rcases hc with h | h <;> simp [h], h.1, h.2⟩

/-! ### Claim C6: title uniqueness (`generateTitle` lines 382-389)

The loop keeps the backend-proposed `title` fixed and tries
`title`, `title ++ " 2"`, `title ++ " 3"`, … against the catalog.  The
counter is rendered by JavaScript template interpolation; `natToString`
below embeds that decimal rendering with a fuel-structural recursion so
the kernel can evaluate it. -/

def digitChr : Nat → Char
  | 0 => '0'
  | 1 => '1'
  | 2 => '2'
  | 3 => '3'
  | 4 => '4'
  | 5 => '5'
  | 6 => '6'
  | 7 => '7'
  | 8 => '8'
  | 9 => '9'
  | _ => '?'

/-- Little-endian decimal digits; `fuel ≥ n` suffices. -/
def toDigitsRevAux (fuel : Nat) (n : Nat) : List Nat :=
  match fuel with
  | 0 => [n]
  | f + 1 => if n < 10 then [n] else (n % 10) :: toDigitsRevAux f (n / 10)

def toDigitsRev (n : Nat) : List Nat := toDigitsRevAux n n

/-- Evaluates little-endian decimal digits back to the number. -/
def ofDigitsRev : List Nat → Nat
  | [] => 0
  | d :: rest => d + 10 * ofDigitsRev rest

/-- Decimal rendering of a natural number (JS number-to-string for the
integer counters used by the title loop). -/
def natToString (n : Nat) : String := ⟨(toDigitsRev n).reverse.map digitChr⟩

theorem ofDigitsRev_toDigitsRevAux :
    ∀ (fuel n : Nat), n ≤ fuel → ofDigitsRev (toDigitsRevAux fuel n) = n := by
  intro fuel
  induction fuel with
  | zero =>
    intro n hn
    interval_cases n
    rfl
  | succ f ih =>
    intro n hn
    rw [toDigitsRevAux]
    by_cases h : n < 10
    · simp [h, ofDigitsRev]
    · have hdiv : n / 10 ≤ f := by
        have : n / 10 < n := Nat.div_lt_self (by omega) (by omega)
        omega
      simp only [h, if_false, ofDigitsRev, ih (n / 10) hdiv]
      omega

theorem toDigitsRev_roundtrip (n : Nat) : ofDigitsRev (toDigitsRev n) = n :=
  ofDigitsRev_toDigitsRevAux n n le_rfl

theorem toDigitsRevAux_lt_ten :
    ∀ (fuel n : Nat), n ≤ fuel → ∀ d ∈ toDigitsRevAux fuel n, d < 10 := by
  intro fuel
  induction fuel with
  | zero =>
    intro n hn d hd
    interval_cases n
    simp [toDigitsRevAux] at hd
    omega
  | succ f ih =>
    intro n hn d hd
    rw [toDigitsRevAux] at hd
    by_cases h : n < 10
    · simp [h] at hd
      omega
    · simp only [h, if_false, List.mem_cons] at hd
      rcases hd with hd | hd
      · subst hd
        exact Nat.mod_lt _ (by omega)
      · have hdiv : n / 10 ≤ f := by
          have : n / 10 < n := Nat.div_lt_self (by omega) (by omega)
          omega
        exact ih (n / 10) hdiv d hd

theorem toDigitsRev_lt_ten (n : Nat) : ∀ d ∈ toDigitsRev n, d < 10 :=
  toDigitsRevAux_lt_ten n n le_rfl

theorem digitChr_inj {d e : Nat} (hd : d < 10) (he : e < 10)
    (h : digitChr d = digitChr e) : d = e := by
  interval_cases d <;> interval_cases e <;> revert h <;> decide

theorem map_digitChr_inj :
    ∀ {l₁ l₂ : List Nat}, (∀ d ∈ l₁, d < 10) → (∀ d ∈ l₂, d < 10) →
      l₁.map digitChr = l₂.map digitChr → l₁ = l₂ := by
  intro l₁
  induction l₁ with
  | nil =>
    intro l₂ _ _ h
    cases l₂ with
    | nil => rfl
    | cons b t => simp at h
  | cons a t₁ ih =>
    intro l₂ hb₁ hb₂ h
    cases l₂ with
    | nil => simp at h
    | cons b t₂ =>
      simp only [List.map_cons, List.cons.injEq] at h
      have hab : a = b :=
        digitChr_inj (hb₁ a (by simp)) (hb₂ b (by simp)) h.1
      have ht : t₁ = t₂ :=
        ih (fun d hd => hb₁ d (by simp [hd])) (fun d hd => hb₂ d (by simp [hd])) h.2
      rw [hab, ht]

theorem natToString_inj {a b : Nat} (h : natToString a = natToString b) : a = b := by
  have hdata : (toDigitsRev a).reverse.map digitChr = (toDigitsRev b).reverse.map digitChr :=
    congrArg String.data h
  have hrev : (toDigitsRev a).reverse = (toDigitsRev b).reverse :=
    map_digitChr_inj
      (fun d hd => toDigitsRev_lt_ten a d (List.mem_reverse.mp hd))
      (fun d hd => toDigitsRev_lt_ten b d (List.mem_reverse.mp hd))
      hdata
  have hdig : toDigitsRev a = toDigitsRev b := by
    have := congrArg List.reverse hrev
    simpa using this
  calc a = ofDigitsRev (toDigitsRev a) := (toDigitsRev_roundtrip a).symm
    _ = ofDigitsRev (toDigitsRev b) := by rw [hdig]
    _ = b := toDigitsRev_roundtrip b

theorem string_append_left_cancel {a b c : String} (h : a ++ b = a ++ c) : b = c := by
  have hd := congrArg String.data h
  simp only [String.data_append] at hd
  exact String.ext (List.append_cancel_left hd)

/-- The i-th candidate tried by the loop: the raw title, then
`title ++ " 2"`, `title ++ " 3"`, … -/
def candidateTitle (title : String) : Nat → String
  | 0 => title
  | i + 1 => title ++ " " ++ natToString (i + 2)

theorem candidateTitle_inj (title : String) : Function.Injective (candidateTitle title) := by
  have hlen : ∀ j : Nat, candidateTitle title 0 ≠ candidateTitle title (j + 1) := by
    intro j h
    have := congrArg String.length h
    simp only [candidateTitle, String.length_append] at this
    have hsp : (" " : String).length = 1 := rfl
    omega
  intro i j h
  match i, j with
  | 0, 0 => rfl
  | 0, j + 1 => exact absurd h (hlen j)
  | i + 1, 0 => exact absurd h.symm (hlen i)
  | i + 1, j + 1 =>
    have hns : natToString (i + 2) = natToString (j + 2) :=
      string_append_left_cancel (a := title ++ " ") h
    have := natToString_inj hns
    omega

/-- The while-loop of `generateTitle`: while the candidate is in the
catalog, replace it by `title ++ " " ++ counter` and bump the counter.
The fuel argument bounds the iteration count; `catalog.length + 1` is
proven sufficient below. -/
def uniquifyLoop (title : String) (savedChats : List String) :
    Nat → String → Nat → String
  | 0, finalTitle, _ => finalTitle
  | fuel + 1, finalTitle, counter =>
    if finalTitle ∈ savedChats then
      uniquifyLoop title savedChats fuel (title ++ " " ++ natToString counter) (counter + 1)
    else finalTitle

/-- The deduplication step of `generateTitle` (lines 382-389), applied
to the backend-proposed title and the saved-chats catalog. -/
def ensureUniqueTitle (title : String) (savedChats : List String) : String :=
  uniquifyLoop title savedChats (savedChats.length + 1) title 2

theorem uniquifyLoop_finds (title : String) (savedChats : List String) :
    ∀ (fuel k i : Nat), k ≤ i → i < k + fuel →
      candidateTitle title i ∉ savedChats →
      (∀ j, k ≤ j → j < i → candidateTitle title j ∈ savedChats) →
      uniquifyLoop title savedChats fuel (candidateTitle title k) (k + 2)
        = candidateTitle title i := by
  intro fuel
  induction fuel with
  | zero =>
    intro k i h1 h2 _ _
    omega
  | succ f ih =>
    intro k i hki hif hnot hall
    rw [uniquifyLoop]
    by_cases hk : k = i
    · subst hk
      rw [if_neg hnot]
    · have hklt : k < i := by omega
      rw [if_pos (hall k le_rfl hklt)]
      have hcand : title ++ " " ++ natToString (k + 2) = candidateTitle title (k + 1) := rfl
      have hctr : k + 2 + 1 = (k + 1) + 2 := by omega
      rw [hcand, hctr]
      exact ih (k + 1) i (by omega) (by omega) hnot (fun j hj1 hj2 => hall j (by omega) hj2)

theorem exists_candidate_not_mem (title : String) (savedChats : List String) :
    ∃ i, i ≤ savedChats.length ∧ candidateTitle title i ∉ savedChats := by
  by_contra hcon
  push_neg at hcon
  have hsub : (List.range (savedChats.length + 1)).map (candidateTitle title) ⊆ savedChats := by
    intro x hx
    simp only [List.mem_map, List.mem_range] at hx
    obtain ⟨i, hi, rfl⟩ := hx
    exact hcon i (by omega)
  have hnd : ((List.range (savedChats.length + 1)).map (candidateTitle title)).Nodup :=
    (List.nodup_map_iff (candidateTitle_inj title)).mpr (List.nodup_range _)
  have hle := (List.subperm_of_subset hnd hsub).length_le
  simp at hle

/-- Claim C6: the uniqueness procedure returns the candidate unchanged
when it is not in the catalog; its result is never in the catalog; the
result is reached by appending the incrementing numeric suffixes
" 2", " 3", … with every earlier candidate found in the catalog, and
the loop needs at most catalog-size + 1 probes (the fuel
`catalog.length + 1` baked into `ensureUniqueTitle` is sufficient);
and on the concrete catalogs of the claim, "A" becomes "A 2" and then
"A 3".  Determinism holds by construction (`ensureUniqueTitle` is a
function). -/
theorem claim_C6_title_uniqueness (title : String) (catalog : List String) :
    (title ∉ catalog → ensureUniqueTitle title catalog = title) ∧
    ensureUniqueTitle title catalog ∉ catalog ∧
    (∃ i, i ≤ catalog.length ∧
      ensureUniqueTitle title catalog = candidateTitle title i ∧
      ∀ j, j < i → candidateTitle title j ∈ catalog) ∧
    ensureUniqueTitle "A" ["A"] = "A 2" ∧
    ensureUniqueTitle "A" ["A", "A 2"] = "A 3" := by
  have hex : ∃ i, candidateTitle title i ∉ catalog := by
    obtain ⟨i, _, hi⟩ := exists_candidate_not_mem title catalog
    exact ⟨i, hi⟩
  have hfind : ensureUniqueTitle title catalog = candidateTitle title (Nat.find hex) := by
    obtain ⟨i0, hle, hnot⟩ := exists_candidate_not_mem title catalog
    have hfle : Nat.find hex ≤ i0 := Nat.find_min' hex hnot
    have h0 : (0 : Nat) ≤ Nat.find hex := Nat.zero_le _
    have := uniquifyLoop_finds title catalog (catalog.length + 1) 0 (Nat.find hex)
      h0 (by omega) (Nat.find_spec hex)
      (fun j _ hj => not_not.mp (Nat.find_min hex hj))
    simpa [ensureUniqueTitle, candidateTitle] using this
  refine ⟨?_, ?_, ?_, by decide, by decide⟩
  · intro hni
    rw [ensureUniqueTitle, uniquifyLoop, if_neg hni]
  · rw [hfind]
    exact Nat.find_spec hex
  · refine ⟨Nat.find hex, ?_, hfind, fun j hj => not_not.mp (Nat.find_min hex hj)⟩
    obtain ⟨i0, hle, hnot⟩ := exists_candidate_not_mem title catalog
    have := Nat.find_min' hex hnot
    omega

theorem claim_C6_title_uniqueness_witness :
    ("Dragon" : String) ∉ (["A", "A 2"] : List String) ∧
    ensureUniqueTitle "Dragon" ["A", "A 2"] = "Dragon" ∧
    ensureUniqueTitle "A" ["A", "A 2"] ∉ (["A", "A 2"] : List String) ∧
    ensureUniqueTitle "A" ["A"] = "A 2" ∧
    ensureUniqueTitle "A" ["A", "A 2"] = "A 3" := by
  have h := claim_C6_title_uniqueness "Dragon" ["A", "A 2"]
  have h2 := claim_C6_title_uniqueness "A" ["A", "A 2"]
  exact ⟨by decide, h.1 (by decide), h2.2.1, h2.2.2.2.1, h2.2.2.2.2⟩

end Narrator
